import Mathlib

/-!
Shallow embedding of the Monny307/backend application bootstrap
(src/app/__init__.py and src/run.py) together with the POSIX path helpers
from the Python standard library and werkzeug that those two files call.
Pure string/path manipulation is modelled over `String.data` character
lists so that every definition is executable and kernel-computable.
-/

namespace WebCV

/-- Python `s.startswith(p)`: `p` is a prefix of `s` (character-wise). -/
def startswith (s p : String) : Bool := p.data.isPrefixOf s.data

/-- Python `s.endswith(p)`: `p` is a suffix of `s` (character-wise). -/
def endswith (s p : String) : Bool := p.data.isSuffixOf s.data

/-- Python `s.split('/')` on a character list: splits at every slash,
keeping empty segments, so that the result is always nonempty. -/
def splitSlash : List Char → List (List Char)
  | [] => [[]]
  | c :: cs =>
    match splitSlash cs with
    | [] => [[]]
    | seg :: segs => if c = '/' then [] :: seg :: segs else (c :: seg) :: segs

/-- Python `path.split('/')` as used by `posixpath.normpath`. -/
def pySplitSlash (s : String) : List String :=
  (splitSlash s.data).map (fun l => String.mk l)

/-- Python `'/'.join(comps)`. -/
def joinComps : List String → String
  | [] => ""
  | [c] => c
  | c :: cs => c ++ "/" ++ joinComps cs

/-- Python `posixpath.isabs(p)`: the path begins with a slash. -/
def isAbs (p : String) : Bool := startswith p "/"

/-- Leading-slash count computed by `posixpath.normpath`: 2 for exactly two
leading slashes (a POSIX special case), otherwise 1 or 0. -/
def initialSlashCount (path : String) : Nat :=
  if isAbs path then
    if startswith path "//" && !(startswith path "///") then 2 else 1
  else 0

/-- One iteration of the component loop of `posixpath.normpath`: empty and
`.` components are dropped, `..` either cancels the previous component or is
kept (at the front of a relative path), and everything else is appended. -/
def normStep (sl : Nat) (acc : List String) (comp : String) : List String :=
  if comp = "" ∨ comp = "." then acc
  else if comp ≠ ".." ∨ (sl = 0 ∧ acc = []) ∨ acc.getLast? = some ".." then
    acc ++ [comp]
  else if acc = [] then acc
  else acc.dropLast

/-- The normalized component list produced by `posixpath.normpath`. -/
def normComps (path : String) : List String :=
  (pySplitSlash path).foldl (normStep (initialSlashCount path)) []

/-- CPython `posixpath.normpath`: collapse `.`/`..`/empty components and
restore the leading slashes; empty results become `"."`. -/
def normpath (path : String) : String :=
  if path = "" then "."
  else
    let p := String.mk (List.replicate (initialSlashCount path) '/') ++
      joinComps (normComps path)
    if p = "" then "." else p

/-- CPython `posixpath.join a b`: absolute `b` replaces `a`, otherwise the
two are separated by exactly one slash. -/
def posixJoin (a b : String) : String :=
  if isAbs b then b
  else if a = "" || endswith a "/" then a ++ b
  else a ++ "/" ++ b

/-- The filename after the normalization step of `werkzeug.security.safe_join`
(`posixpath.normpath` is applied to every nonempty filename). -/
def resolvedName (filename : String) : String :=
  if filename ≠ "" then normpath filename else filename

/-- The rejection test of `werkzeug.security.safe_join` on a normalized
filename: absolute paths, a bare `..`, and names beginning with `../` resolve
outside the base directory and are rejected. -/
def escapingName (fn : String) : Bool :=
  isAbs fn || decide (fn = "..") || startswith fn "../"

/-- `werkzeug.security.safe_join directory filename` (POSIX, two-argument
form): normalizes the filename, rejects escaping names with `none`, and
otherwise joins the pieces. An empty directory is replaced by `"."`. -/
def safe_join (directory filename : String) : Option String :=
  let dir := if directory = "" then "." else directory
  let fn := resolvedName filename
  if escapingName fn then none else some (posixJoin dir fn)

/-- The normalized component list of a requested filename (empty for the
empty name, which `safe_join` passes through unnormalized); a served path is
the upload folder joined with exactly these components. -/
def resolvedComps (filename : String) : List String :=
  if filename = "" then [] else normComps filename

/-- Component lists whose parent-directory entries all sit at the front: the
shape `posixpath.normpath` maintains for relative paths. -/
def ParentsInFront (l : List String) : Prop :=
  ∃ k rest, l = List.replicate k ".." ++ rest ∧ ".." ∉ rest

/-- Filesystem state: the sets of existing directory paths and file paths,
as lists of path strings. -/
structure FS where
  dirs : List String
  files : List String
deriving DecidableEq

/-- Python `os.path.exists p`: a directory or a file exists at `p`. -/
def pathExists (fs : FS) (p : String) : Prop := p ∈ fs.dirs ∨ p ∈ fs.files

instance (fs : FS) (p : String) : Decidable (pathExists fs p) := by
  unfold pathExists; infer_instance

/-- Python `os.path.isfile p`. -/
def isFile (fs : FS) (p : String) : Prop := p ∈ fs.files

instance (fs : FS) (p : String) : Decidable (isFile fs p) := by
  unfold isFile; infer_instance

/-- The directories `os.makedirs p` ensures: every proper slash-separated
ancestor of `p`, and `p` itself. -/
def mkdirTargets (p : String) : List String :=
  ((List.range ((pySplitSlash p).length - 1)).map
    (fun i => joinComps ((pySplitSlash p).take (i + 1)))) ++ [p]

/-- Python `os.makedirs(p, exist_ok := true)`: adds the missing ancestors of
`p` and `p` itself to the directory set; never fails when entries already
exist. The empty path is never recorded as a directory. -/
def makedirs (fs : FS) (p : String) : FS :=
  { fs with
    dirs := fs.dirs ++ (mkdirTargets p).filter (fun q => decide (q ∉ fs.dirs ∧ q ≠ "")) }

/-- Flask application configuration: the three keys read by the two source
files. A `none` field models an absent key. -/
structure AppConfig where
  sqlalchemyDatabaseUri : Option String := none
  uploadFolder : Option String := none
  corsOrigins : Option (List String) := none
deriving DecidableEq

/-- Python truthiness of an optional string: absent and empty are falsy. -/
def truthyStr : Option String → Bool
  | none => false
  | some s => decide (s ≠ "")

/-- Lines 30-33 of src/app/__init__.py: when `SQLALCHEMY_DATABASE_URI` is
unset or empty after the config object is applied, fall back to the local
SQLite database `sqlite:///app.db`. -/
def fixDatabaseUri (c : AppConfig) : AppConfig :=
  if truthyStr c.sqlalchemyDatabaseUri then c
  else { c with sqlalchemyDatabaseUri := some "sqlite:///app.db" }

/-- The cross-origin policy registered by the `CORS(app, ...)` call on lines
42-47 of src/app/__init__.py. -/
structure CORSConfig where
  resourcePattern : String
  origins : List String
  supportsCredentials : Bool
  allowHeaders : List String
  methods : List String
deriving DecidableEq

/-- The application object produced by the factory: its configuration, its
registered cross-origin policy, and the filesystem as left by the
directory-creation step. -/
structure App where
  config : AppConfig
  cors : CORSConfig
  fs : FS
deriving DecidableEq

/-- Lines 21-22 of src/app/__init__.py: an explicit `config_name` argument
wins, otherwise the `FLASK_ENV` environment variable, otherwise the
`ENVIRONMENT` constant imported from the config module. -/
def resolveConfigName (configName flaskEnv : Option String) (environment : String) : String :=
  configName.getD (flaskEnv.getD environment)

/-- Line 27 of src/app/__init__.py:
`config.get(config_name, config['default'])`. A `none` result models the
`KeyError` raised when the mapping lacks a `'default'` entry. -/
def chooseConfig (configMap : String → Option AppConfig) (name : String) :
    Option AppConfig :=
  match configMap name with
  | some c => some c
  | none => configMap "default"

/-- Line 50 of src/app/__init__.py: the upload folder is the `UPLOAD_FOLDER`
config entry, with `os.path.join(os.getcwd(), 'uploads')` as default. -/
def effectiveUploadFolder (cfg : AppConfig) (cwd : String) : String :=
  cfg.uploadFolder.getD (posixJoin cwd "uploads")

/-- Lines 52-55 of src/app/__init__.py: the four `os.makedirs` calls creating
the upload folder and its `cvs`, `profiles` and `logos` subdirectories. -/
def createUploadDirs (fs : FS) (uf : String) : FS :=
  makedirs (makedirs (makedirs (makedirs fs uf)
    (posixJoin uf "cvs")) (posixJoin uf "profiles")) (posixJoin uf "logos")

/-- Lines 49-55 of src/app/__init__.py, exactly as written: when the upload
folder does not exist, create it and the three subdirectories `cvs`,
`profiles` and `logos`; when it already exists, do nothing at all (the
subdirectory calls sit inside the same guard). -/
def uploadStep (cfg : AppConfig) (cwd : String) (fs : FS) : FS :=
  let uf := effectiveUploadFolder cfg cwd
  if pathExists fs uf then fs else createUploadDirs fs uf

/-- Default origin list of the CORS call on line 44 of src/app/__init__.py. -/
def defaultCorsOrigins : List String := ["http://localhost:3000"]

/-- The factory `create_app` of src/app/__init__.py (lines 19-100), restricted
to the observable state the claims are about: config-name resolution, config
selection with `'default'` fallback, the database-URI fix, the CORS
registration, and the upload-directory step. The config mapping and the
`ENVIRONMENT` constant live in the config module (not part of src/) and are
taken as parameters; `none` models the startup `KeyError` when the mapping
has no `'default'` entry. First half: the application state built from the
selected config object. -/
def buildApp (chosen : AppConfig) (cwd : String) (fs : FS) : App :=
  let cfg := fixDatabaseUri chosen
  { config := cfg
    cors := {
      resourcePattern := "/api/*"
      origins := cfg.corsOrigins.getD defaultCorsOrigins
      supportsCredentials := true
      allowHeaders := ["Content-Type", "Authorization"]
      methods := ["GET", "POST", "PUT", "PATCH", "DELETE", "OPTIONS"] }
    fs := uploadStep cfg cwd fs }

/-- Second half of the factory: dispatch on the selected config object. -/
def create_app (configMap : String → Option AppConfig) (environment : String)
    (configName flaskEnv : Option String) (cwd : String) (fs : FS) : Option App :=
  match chooseConfig configMap (resolveConfigName configName flaskEnv environment) with
  | none => none
  | some chosen => some (buildApp chosen cwd fs)

/-- Body of the `GET /` response of lines 83-98 of src/app/__init__.py. -/
structure IndexBody where
  message : String
  version : String
  endpoints : List (String × String)
deriving DecidableEq

/-- The fixed `(body, 200)` pair returned by the `index` route handler on
lines 83-98 of src/app/__init__.py. -/
def indexRoute : IndexBody × Nat :=
  ({ message := "WebCV Backend API"
     version := "1.0.0"
     endpoints := [
       ("auth", "/api/auth/*"),
       ("users", "/api/users/*"),
       ("jobs", "/api/jobs/*"),
       ("applications", "/api/applications/*"),
       ("profiles", "/api/profiles/*"),
       ("job_alerts", "/api/job-alerts/*"),
       ("admin", "/api/admin/*"),
       ("contact", "/api/contact")] }, 200)

/-- Outcome of an HTTP request in the model: a streamed file, a 404
not-found response, or a 500 server error from an uncaught exception. -/
inductive HttpResult where
  | file : String → HttpResult
  | notFound : HttpResult
  | serverError : HttpResult
deriving DecidableEq

/-- Modelled from the spec: Flask's `send_from_directory` helper (the flask
package is not part of this repository), which per the spec streams a file
from the upload directory or yields a not-found failure if absent. It
safe-joins the directory and the requested name, absolutizes against the
working directory, answers 404 when the join is rejected or no file is
there, and streams the file otherwise. -/
def send_from_directory (cwd : String) (fs : FS) (directory filename : String) :
    HttpResult :=
  match safe_join directory filename with
  | none => HttpResult.notFound
  | some p =>
    let q := posixJoin cwd p
    if isFile fs q then HttpResult.file q else HttpResult.notFound

/-- The `serve_uploaded_file` handler of src/run.py (lines 9-13): it reads
`app.config['UPLOAD_FOLDER']` by direct key lookup — an absent key raises
`KeyError`, which Flask renders as a 500 server error — and otherwise
delegates to `send_from_directory`. -/
def serve_uploaded_file (cfg : AppConfig) (cwd : String) (fs : FS)
    (filename : String) : HttpResult :=
  match cfg.uploadFolder with
  | none => HttpResult.serverError
  | some uf => send_from_directory cwd fs uf filename

/-- Modelled from the spec: the flask-cors preflight handling (the flask_cors
package is not part of this repository). Per the spec, a preflight request to
a path under the configured `/api/` resource scope from an allowed origin is
answered with the configured methods and headers; other paths and origins
receive no CORS answer. -/
def corsPreflight (c : CORSConfig) (path origin : String) :
    Option (List String × List String) :=
  if startswith path "/api/" && decide (origin ∈ c.origins) then
    some (c.methods, c.allowHeaders)
  else none

/-- The top-level function definitions of the two source files, in order:
src/app/__init__.py defines `create_app` (line 19); src/run.py defines
`serve_uploaded_file` (line 10) and `make_shell_context` (line 17). -/
def sourceTopLevelFunctionDefs : List (String × String) :=
  [("src/app/__init__.py", "create_app"),
   ("src/run.py", "serve_uploaded_file"),
   ("src/run.py", "make_shell_context")]

/-- The application-bootstrap factory definitions among the top-level
definitions of the source. -/
def bootstrapFactoryDefs : List (String × String) :=
  sourceTopLevelFunctionDefs.filter (fun d => decide (d.2 = "create_app"))

/-- A concrete production-style configuration used by the witnesses. -/
def demoConfig : AppConfig :=
  { sqlalchemyDatabaseUri := some "postgresql://prod-db/webcv"
    uploadFolder := some "/srv/uploads"
    corsOrigins := none }

/-- A concrete config mapping with only a `'default'` entry. -/
def demoConfigMap : String → Option AppConfig :=
  fun name => if name = "default" then some demoConfig else none

/-- A filesystem in which the upload folder exists but none of its
subdirectories do. -/
def demoFS : FS := { dirs := ["/srv", "/srv/uploads"], files := [] }

/-- A filesystem with the complete upload tree and one stored file. -/
def demoFullFS : FS :=
  { dirs := ["/srv", "/srv/uploads", "/srv/uploads/cvs", "/srv/uploads/profiles",
             "/srv/uploads/logos"]
    files := ["/srv/uploads/cvs/cv1.pdf"] }

/-- A configuration with every key absent. -/
def bareConfig : AppConfig := {}

/-- A config mapping whose `'default'` entry is the bare configuration. -/
def bareConfigMap : String → Option AppConfig :=
  fun name => if name = "default" then some bareConfig else none

/-- The empty filesystem. -/
def emptyFS : FS := { dirs := [], files := [] }

/-- The application produced by the demo configuration over the complete
filesystem; used by the concrete instances below. -/
def demoApp : App :=
  (create_app demoConfigMap "development" none none "/srv" demoFullFS).getD
    { config := {}, cors := ⟨"", [], false, [], []⟩, fs := emptyFS }

/-- The application produced by the bare configuration over the empty
filesystem. -/
def bareApp : App :=
  (create_app bareConfigMap "development" none none "/app" emptyFS).getD
    { config := {}, cors := ⟨"", [], false, [], []⟩, fs := emptyFS }

/-! ### Helper lemmas about the filesystem model -/

theorem makedirs_files (fs : FS) (p : String) : (makedirs fs p).files = fs.files := rfl

theorem mem_dirs_makedirs (fs : FS) (p q : String) (h : q ∈ fs.dirs) :
    q ∈ (makedirs fs p).dirs :=
  List.mem_append_left _ h

theorem self_mem_mkdirTargets (p : String) : p ∈ mkdirTargets p :=
  List.mem_append_right _ (List.mem_singleton.mpr rfl)

theorem mem_dirs_of_target (fs : FS) (p q : String)
    (hq : q ∈ mkdirTargets p) (hne : q ≠ "") : q ∈ (makedirs fs p).dirs := by
  by_cases h : q ∈ fs.dirs
  · exact List.mem_append_left _ h
  · exact List.mem_append_right _ (List.mem_filter.mpr ⟨hq, by simp [h, hne]⟩)

theorem makedirs_eq_self (fs : FS) (p : String)
    (h : ∀ q ∈ mkdirTargets p, q ∈ fs.dirs ∨ q = "") : makedirs fs p = fs := by
  have hnil : (mkdirTargets p).filter (fun q => decide (q ∉ fs.dirs ∧ q ≠ "")) = [] := by
    rw [List.filter_eq_nil_iff]
    intro a ha
    rcases h a ha with h1 | h1 <;> simp [h1]
  simp only [makedirs, hnil, List.append_nil]

theorem createUploadDirs_complete (fs : FS) (uf q : String) (hne : q ≠ "")
    (h : q ∈ mkdirTargets uf ∨ q ∈ mkdirTargets (posixJoin uf "cvs") ∨
      q ∈ mkdirTargets (posixJoin uf "profiles") ∨
      q ∈ mkdirTargets (posixJoin uf "logos")) :
    q ∈ (createUploadDirs fs uf).dirs := by
  unfold createUploadDirs
  rcases h with h | h | h | h
  · exact mem_dirs_makedirs _ _ _ (mem_dirs_makedirs _ _ _
      (mem_dirs_makedirs _ _ _ (mem_dirs_of_target _ _ _ h hne)))
  · exact mem_dirs_makedirs _ _ _ (mem_dirs_makedirs _ _ _
      (mem_dirs_of_target _ _ _ h hne))
  · exact mem_dirs_makedirs _ _ _ (mem_dirs_of_target _ _ _ h hne)
  · exact mem_dirs_of_target _ _ _ h hne

theorem createUploadDirs_idem (fs : FS) (uf : String) :
    createUploadDirs (createUploadDirs fs uf) uf = createUploadDirs fs uf := by
  have e1 : makedirs (createUploadDirs fs uf) uf = createUploadDirs fs uf :=
    makedirs_eq_self _ _ (fun q hq => by
      by_cases hne : q = ""
      · exact Or.inr hne
      · exact Or.inl (createUploadDirs_complete fs uf q hne (Or.inl hq)))
  have e2 : makedirs (createUploadDirs fs uf) (posixJoin uf "cvs") =
      createUploadDirs fs uf :=
    makedirs_eq_self _ _ (fun q hq => by
      by_cases hne : q = ""
      · exact Or.inr hne
      · exact Or.inl (createUploadDirs_complete fs uf q hne (Or.inr (Or.inl hq))))
  have e3 : makedirs (createUploadDirs fs uf) (posixJoin uf "profiles") =
      createUploadDirs fs uf :=
    makedirs_eq_self _ _ (fun q hq => by
      by_cases hne : q = ""
      · exact Or.inr hne
      · exact Or.inl (createUploadDirs_complete fs uf q hne (Or.inr (Or.inr (Or.inl hq)))))
  have e4 : makedirs (createUploadDirs fs uf) (posixJoin uf "logos") =
      createUploadDirs fs uf :=
    makedirs_eq_self _ _ (fun q hq => by
      by_cases hne : q = ""
      · exact Or.inr hne
      · exact Or.inl (createUploadDirs_complete fs uf q hne (Or.inr (Or.inr (Or.inr hq)))))
  calc createUploadDirs (createUploadDirs fs uf) uf
      = makedirs (makedirs (makedirs (makedirs (createUploadDirs fs uf) uf)
          (posixJoin uf "cvs")) (posixJoin uf "profiles")) (posixJoin uf "logos") := rfl
    _ = createUploadDirs fs uf := by rw [e1, e2, e3, e4]

theorem uploadStep_idem (cfg : AppConfig) (cwd : String) (fs : FS) :
    uploadStep cfg cwd (uploadStep cfg cwd fs) = uploadStep cfg cwd fs := by
  unfold uploadStep
  by_cases h : pathExists fs (effectiveUploadFolder cfg cwd)
  · simp only [if_pos h]
  · simp only [if_neg h]
    by_cases h2 : pathExists (createUploadDirs fs (effectiveUploadFolder cfg cwd))
        (effectiveUploadFolder cfg cwd)
    · rw [if_pos h2]
    · rw [if_neg h2, createUploadDirs_idem]

theorem create_app_eq_some (cm : String → Option AppConfig) (env : String)
    (cn fe : Option String) (cwd : String) (fs : FS) (app : App)
    (happ : create_app cm env cn fe cwd fs = some app) :
    ∃ chosen, chooseConfig cm (resolveConfigName cn fe env) = some chosen ∧
      app = buildApp chosen cwd fs := by
  unfold create_app at happ
  cases hch : chooseConfig cm (resolveConfigName cn fe env) with
  | none => rw [hch] at happ; exact absurd happ (by simp)
  | some chosen =>
    rw [hch] at happ
    exact ⟨chosen, rfl, (Option.some.inj happ).symm⟩

theorem buildApp_config (chosen : AppConfig) (cwd : String) (fs : FS) :
    (buildApp chosen cwd fs).config = fixDatabaseUri chosen := rfl

theorem buildApp_fs (chosen : AppConfig) (cwd : String) (fs : FS) :
    (buildApp chosen cwd fs).fs = uploadStep (fixDatabaseUri chosen) cwd fs := rfl

theorem fixDatabaseUri_uploadFolder (c : AppConfig) :
    (fixDatabaseUri c).uploadFolder = c.uploadFolder := by
  unfold fixDatabaseUri; split <;> rfl

theorem fixDatabaseUri_corsOrigins (c : AppConfig) :
    (fixDatabaseUri c).corsOrigins = c.corsOrigins := by
  unfold fixDatabaseUri; split <;> rfl

/-! ### Helper lemmas about path normalization -/

theorem isPrefixOf_append_self : ∀ (l t : List Char), l.isPrefixOf (l ++ t) = true
  | [], _ => by simp [List.isPrefixOf]
  | c :: cs, t => by
    simp only [List.cons_append, List.isPrefixOf]
    rw [show cs.append t = cs ++ t from rfl, isPrefixOf_append_self cs t]
    simp

theorem startswith_append_self (p x : String) : startswith (p ++ x) p = true := by
  unfold startswith
  rw [String.data_append]
  exact isPrefixOf_append_self p.data x.data

theorem parents_in_front_step (comp : String) (acc : List String)
    (h : ParentsInFront acc) : ParentsInFront (normStep 0 acc comp) := by
  obtain ⟨k, rest, rfl, hr⟩ := h
  unfold normStep
  by_cases h1 : comp = "" ∨ comp = "."
  · rw [if_pos h1]
    exact ⟨k, rest, rfl, hr⟩
  · rw [if_neg h1]
    by_cases h2 : comp ≠ ".." ∨ (0 = 0 ∧ List.replicate k ".." ++ rest = []) ∨
        (List.replicate k ".." ++ rest).getLast? = some ".."
    · rw [if_pos h2]
      by_cases hc : comp = ".."
      · subst hc
        rcases h2 with h2 | h2 | h2
        · exact absurd rfl h2
        · rw [h2.2]
          exact ⟨1, [], by simp, by simp⟩
        · cases rest with
          | nil =>
            refine ⟨k + 1, [], ?_, by simp⟩
            simp [List.replicate_succ']
          | cons r rs =>
            exfalso
            rw [List.getLast?_append] at h2
            cases hg2 : (r :: rs).getLast? with
            | none =>
              rw [List.getLast?_eq_none_iff] at hg2
              cases hg2
            | some y =>
              rw [hg2, Option.or_some] at h2
              have hy := Option.some.inj h2
              exact hr (hy ▸ List.mem_of_getLast?_eq_some hg2)
      · refine ⟨k, rest ++ [comp], by rw [List.append_assoc], ?_⟩
        intro hmem
        rcases List.mem_append.mp hmem with hm | hm
        · exact hr hm
        · exact hc (List.mem_singleton.mp hm).symm
    · rw [if_neg h2]
      by_cases h3 : List.replicate k ".." ++ rest = []
      · rw [if_pos h3]
        exact ⟨k, rest, rfl, hr⟩
      · rw [if_neg h3]
        cases rest with
        | nil =>
          rw [List.append_nil, List.dropLast_replicate]
          exact ⟨k - 1, [], by simp, by simp⟩
        | cons r rs =>
          rw [List.dropLast_append_of_ne_nil _ (by simp)]
          refine ⟨k, (r :: rs).dropLast, rfl, ?_⟩
          intro hm
          exact hr (List.Sublist.mem hm (List.dropLast_sublist _))

theorem parents_in_front_foldl (comps : List String) :
    ∀ acc, ParentsInFront acc →
      ParentsInFront (comps.foldl (normStep 0) acc) := by
  induction comps with
  | nil => exact fun acc h => h
  | cons c cs ih =>
    intro acc h
    exact ih (normStep 0 acc c) (parents_in_front_step c acc h)

theorem parents_in_front_normComps (path : String)
    (hsl : initialSlashCount path = 0) : ParentsInFront (normComps path) := by
  unfold normComps
  rw [hsl]
  exact parents_in_front_foldl (pySplitSlash path) [] ⟨0, [], rfl, by simp⟩

theorem isAbs_normpath_of_slashes (path : String)
    (h : initialSlashCount path ≠ 0) : isAbs (normpath path) = true := by
  have hne : path ≠ "" := by
    intro he
    rw [he] at h
    exact h (by decide)
  unfold normpath
  rw [if_neg hne]
  dsimp only
  have hp : isAbs (String.mk (List.replicate (initialSlashCount path) '/') ++
      joinComps (normComps path)) = true := by
    unfold isAbs startswith
    rw [String.data_append]
    cases hsl : initialSlashCount path with
    | zero => exact absurd hsl h
    | succ n =>
      rw [List.replicate_succ]
      exact isPrefixOf_append_self ['/']
        (List.replicate n '/' ++ (joinComps (normComps path)).data)
  have hpne : ¬ (String.mk (List.replicate (initialSlashCount path) '/') ++
      joinComps (normComps path) = "") := by
    intro he
    rw [he] at hp
    exact absurd hp (by decide)
  rw [if_neg hpne]
  exact hp

theorem joinComps_parents_ne_empty (t : List String) :
    joinComps (".." :: t) ≠ "" := by
  cases t with
  | nil => decide
  | cons a as =>
    show ".." ++ "/" ++ joinComps (a :: as) ≠ ""
    intro he
    have hd := congrArg String.data he
    rw [String.data_append, String.data_append] at hd
    exact List.cons_ne_nil _ _ hd

theorem escaping_of_parents (k : Nat) (rest : List String) (hk : k ≠ 0) :
    escapingName (joinComps (List.replicate k ".." ++ rest)) = true := by
  cases k with
  | zero => exact absurd rfl hk
  | succ n =>
    rw [List.replicate_succ, List.cons_append]
    cases hnr : List.replicate n ".." ++ rest with
    | nil =>
      show escapingName (joinComps [".."]) = true
      decide
    | cons a as =>
      have hsw : startswith (joinComps (".." :: a :: as)) "../" = true := by
        show startswith (".." ++ "/" ++ joinComps (a :: as)) "../" = true
        have he : ".." ++ "/" ++ joinComps (a :: as) =
            "../" ++ joinComps (a :: as) := rfl
        rw [he]
        exact startswith_append_self "../" _
      unfold escapingName
      rw [hsw]
      simp

theorem normpath_of_relative (fn : String) (hfn : fn ≠ "")
    (hsl : initialSlashCount fn = 0) (hne : joinComps (normComps fn) ≠ "") :
    normpath fn = joinComps (normComps fn) := by
  unfold normpath
  rw [if_neg hfn, hsl]
  dsimp only
  have hpe : String.mk (List.replicate 0 '/') ++ joinComps (normComps fn) =
      joinComps (normComps fn) := by
    apply String.ext
    rw [String.data_append]
    rfl
  rw [hpe, if_neg hne]

theorem no_parent_comps_of_not_escaping (fn : String) (hfn : fn ≠ "")
    (h : escapingName (normpath fn) = false) : ".." ∉ normComps fn := by
  have hsl : initialSlashCount fn = 0 := by
    by_contra hsl
    unfold escapingName at h
    rw [isAbs_normpath_of_slashes fn hsl] at h
    simp at h
  obtain ⟨k, rest, heq, hr⟩ := parents_in_front_normComps fn hsl
  cases hk : k with
  | zero =>
    rw [heq, hk]
    simpa using hr
  | succ n =>
    exfalso
    have hjne : joinComps (normComps fn) ≠ "" := by
      rw [heq, hk, List.replicate_succ, List.cons_append]
      exact joinComps_parents_ne_empty _
    have hnp := normpath_of_relative fn hfn hsl hjne
    rw [hnp, heq, hk] at h
    rw [escaping_of_parents (n + 1) rest (by simp)] at h
    cases h

/-! ### Claim theorems -/

/-- C3: for every request, `GET /` returns HTTP 200 with a JSON object
containing `message`, `version`, and an `endpoints` map that has exactly
eight entries, matching the fixed route-group names. -/
theorem index_route_eight_endpoints :
    indexRoute.2 = 200 ∧
    indexRoute.1.message = "WebCV Backend API" ∧
    indexRoute.1.version = "1.0.0" ∧
    indexRoute.1.endpoints.length = 8 ∧
    indexRoute.1.endpoints.map Prod.fst =
      ["auth", "users", "jobs", "applications", "profiles", "job_alerts",
       "admin", "contact"] :=
  ⟨rfl, rfl, rfl, rfl, rfl⟩

/-- C7 counterexample: the source does not contain two definitions of the
application bootstrap factory; among the top-level definitions of the two
source files, exactly one is a bootstrap factory. -/
theorem bootstrap_factory_not_duplicated :
    bootstrapFactoryDefs.length = 1 ∧ ¬ bootstrapFactoryDefs.length = 2 := by
  decide

/-- C7 amended: the source contains exactly one definition of the application
bootstrap factory, namely `create_app` in src/app/__init__.py, so there is no
second version whose behavioural equivalence could be asked about. -/
theorem bootstrap_factory_unique :
    bootstrapFactoryDefs = [("src/app/__init__.py", "create_app")] := by
  decide

/-- C1 (code evaluated at the failing input): with the upload folder
`/srv/uploads` already present and its subdirectories absent, `create_app`
succeeds but leaves the filesystem untouched, so none of `cvs`, `profiles`,
`logos` exists afterwards — the three subdirectory `os.makedirs` calls sit
inside the `if not os.path.exists(upload_folder)` guard on line 51. -/
theorem create_app_subdir_missing_when_parent_preexists :
    (create_app demoConfigMap "development" none none "/srv" demoFS).map App.fs =
      some demoFS ∧
    ¬ pathExists demoFS "/srv/uploads/cvs" ∧
    ¬ pathExists demoFS "/srv/uploads/profiles" ∧
    ¬ pathExists demoFS "/srv/uploads/logos" := by
  decide

/-- C6: the filesystem side effect of create_app is idempotent — when the
upload directory and its three subdirectories already exist, create_app
completes (no error is modelled anywhere in the step) and leaves the
filesystem in the same state, and running the directory-creation step twice
is equivalent to running it once. -/
theorem create_app_filesystem_idempotent
    (cm : String → Option AppConfig) (env : String) (cn fe : Option String)
    (cwd : String) (fs : FS) (app : App)
    (happ : create_app cm env cn fe cwd fs = some app)
    (hdir : pathExists fs (effectiveUploadFolder app.config cwd))
    (hcvs : pathExists fs (posixJoin (effectiveUploadFolder app.config cwd) "cvs"))
    (hpro : pathExists fs (posixJoin (effectiveUploadFolder app.config cwd) "profiles"))
    (hlog : pathExists fs (posixJoin (effectiveUploadFolder app.config cwd) "logos")) :
    app.fs = fs ∧
    ∀ (cfg : AppConfig) (gs : FS),
      uploadStep cfg cwd (uploadStep cfg cwd gs) = uploadStep cfg cwd gs := by
  obtain ⟨chosen, hch, rfl⟩ := create_app_eq_some cm env cn fe cwd fs app happ
  refine ⟨?_, fun cfg gs => uploadStep_idem cfg cwd gs⟩
  rw [buildApp_config] at hdir
  rw [buildApp_fs]
  unfold uploadStep
  exact if_pos hdir

/-- Witness for C6 at a concrete input: the full upload tree exists, the
filesystem is returned unchanged, and the step is idempotent there. -/
theorem create_app_filesystem_idempotent_witness :
    demoApp.fs = demoFullFS ∧
    uploadStep demoConfig "/srv" (uploadStep demoConfig "/srv" demoFS) =
      uploadStep demoConfig "/srv" demoFS := by
  have h := create_app_filesystem_idempotent demoConfigMap "development" none none
    "/srv" demoFullFS demoApp (by decide) (by decide) (by decide) (by decide) (by decide)
  exact ⟨h.1, h.2 demoConfig demoFS⟩

/-- C2: whenever SQLALCHEMY_DATABASE_URI is unset or empty in the selected
config object, create_app sets it to the sqlite fallback; in every case the
resulting connection string is set (truthy), and app creation succeeds
whenever a config object was selected, independently of the database URI. -/
theorem create_app_database_uri_fallback
    (cm : String → Option AppConfig) (env : String) (cn fe : Option String)
    (cwd : String) (fs : FS) (chosen : AppConfig)
    (hch : chooseConfig cm (resolveConfigName cn fe env) = some chosen) :
    ∃ app, create_app cm env cn fe cwd fs = some app ∧
      truthyStr app.config.sqlalchemyDatabaseUri = true ∧
      ((chosen.sqlalchemyDatabaseUri = none ∨ chosen.sqlalchemyDatabaseUri = some "") →
        app.config.sqlalchemyDatabaseUri = some "sqlite:///app.db") := by
  refine ⟨buildApp chosen cwd fs, ?_, ?_, ?_⟩
  · unfold create_app
    rw [hch]
  · rw [buildApp_config]
    by_cases ht : truthyStr chosen.sqlalchemyDatabaseUri = true
    · unfold fixDatabaseUri
      rw [if_pos ht]
      exact ht
    · unfold fixDatabaseUri
      rw [if_neg ht]
      rfl
  · intro hf
    rw [buildApp_config]
    have ht : ¬ truthyStr chosen.sqlalchemyDatabaseUri = true := by
      rcases hf with h | h <;> simp [truthyStr, h]
    unfold fixDatabaseUri
    rw [if_neg ht]

/-- Witness for C2 at a concrete input: the bare configuration has no
database URI, and the created application carries the sqlite fallback. -/
theorem create_app_database_uri_fallback_witness :
    truthyStr bareApp.config.sqlalchemyDatabaseUri = true ∧
    bareApp.config.sqlalchemyDatabaseUri = some "sqlite:///app.db" := by
  obtain ⟨app, happ, ht, hf⟩ := create_app_database_uri_fallback bareConfigMap
    "development" none none "/app" emptyFS bareConfig (by decide)
  have heq : bareApp = app := by
    unfold bareApp
    rw [happ]
    rfl
  rw [heq]
  exact ⟨ht, hf (Or.inl rfl)⟩

/-- C8: for every config_name argument that is not a key of the config
mapping, create_app selects the 'default' configuration object and completes
without raising. -/
theorem create_app_unknown_config_name_defaults
    (cm : String → Option AppConfig) (env cwd : String) (fe : Option String)
    (fs : FS) (name : String) (d : AppConfig)
    (hmiss : cm name = none) (hdef : cm "default" = some d) :
    chooseConfig cm name = some d ∧
    create_app cm env (some name) fe cwd fs = some (buildApp d cwd fs) := by
  have hch : chooseConfig cm name = some d := by
    unfold chooseConfig
    rw [hmiss]
    exact hdef
  refine ⟨hch, ?_⟩
  unfold create_app
  have hname : resolveConfigName (some name) fe env = name := rfl
  rw [hname, hch]

/-- Witness for C8 at a concrete input: the name "staging" is not a key of
the demo mapping, and the default entry is selected. -/
theorem create_app_unknown_config_name_defaults_witness :
    chooseConfig demoConfigMap "staging" = some demoConfig ∧
    create_app demoConfigMap "development" (some "staging") none "/srv" demoFullFS =
      some (buildApp demoConfig "/srv" demoFullFS) :=
  create_app_unknown_config_name_defaults demoConfigMap "development" "/srv" none
    demoFullFS "staging" demoConfig (by decide) (by decide)

/-- C5: the cross-origin policy configured by create_app is scoped to paths
under the /api/ prefix, allows the configurable origin set (defaulting to
http://localhost:3000), the fixed method set, the fixed header set, and
credentialed requests; a preflight request to an /api/ path from a configured
origin receives exactly these methods and headers, and a non-API path
receives none. -/
theorem create_app_cors_policy
    (cm : String → Option AppConfig) (env : String) (cn fe : Option String)
    (cwd : String) (fs : FS) (app : App) (chosen : AppConfig)
    (happ : create_app cm env cn fe cwd fs = some app)
    (hch : chooseConfig cm (resolveConfigName cn fe env) = some chosen) :
    app.cors.resourcePattern = "/api/*" ∧
    app.cors.origins = chosen.corsOrigins.getD defaultCorsOrigins ∧
    app.cors.methods = ["GET", "POST", "PUT", "PATCH", "DELETE", "OPTIONS"] ∧
    app.cors.allowHeaders = ["Content-Type", "Authorization"] ∧
    app.cors.supportsCredentials = true ∧
    (∀ path origin, startswith path "/api/" = true → origin ∈ app.cors.origins →
      corsPreflight app.cors path origin =
        some (["GET", "POST", "PUT", "PATCH", "DELETE", "OPTIONS"],
          ["Content-Type", "Authorization"])) ∧
    (∀ path origin, startswith path "/api/" = false →
      corsPreflight app.cors path origin = none) := by
  obtain ⟨chosen2, hch2, rfl⟩ := create_app_eq_some cm env cn fe cwd fs app happ
  rw [hch] at hch2
  cases Option.some.inj hch2
  refine ⟨rfl, ?_, rfl, rfl, rfl, ?_, ?_⟩
  · show (fixDatabaseUri chosen).corsOrigins.getD defaultCorsOrigins =
      chosen.corsOrigins.getD defaultCorsOrigins
    rw [fixDatabaseUri_corsOrigins]
  · intro path origin h1 h2
    simp only [corsPreflight, h1, h2, decide_eq_true_eq, if_pos, Bool.and_self,
      Bool.true_and, if_true]
    rfl
  · intro path origin h1
    simp [corsPreflight, h1]

/-- Witness for C5 at a concrete input: default origins, a successful
preflight to an API path, and no CORS answer outside the API scope. -/
theorem create_app_cors_policy_witness :
    demoApp.cors.origins = ["http://localhost:3000"] ∧
    corsPreflight demoApp.cors "/api/jobs/1" "http://localhost:3000" =
      some (["GET", "POST", "PUT", "PATCH", "DELETE", "OPTIONS"],
        ["Content-Type", "Authorization"]) ∧
    corsPreflight demoApp.cors "/health" "http://localhost:3000" = none := by
  have h := create_app_cors_policy demoConfigMap "development" none none "/srv"
    demoFullFS demoApp demoConfig (by decide) (by decide)
  refine ⟨?_, ?_, ?_⟩
  · rw [h.2.1]
    rfl
  · exact h.2.2.2.2.2.1 "/api/jobs/1" "http://localhost:3000" (by decide) (by decide)
  · exact h.2.2.2.2.2.2 "/health" "http://localhost:3000" (by decide)

/-- C4: with the upload folder configured, a request for a filename that
safely resolves to a path inside it streams the file at that path when it
exists and returns a not-found response when it is absent; it is never a
server error. -/
theorem serve_uploaded_file_found_or_not_found
    (cfg : AppConfig) (cwd : String) (fs : FS) (uf fn p : String)
    (hset : cfg.uploadFolder = some uf)
    (hp : safe_join uf fn = some p) (habs : isAbs p = true) :
    (isFile fs p → serve_uploaded_file cfg cwd fs fn = HttpResult.file p) ∧
    (¬ isFile fs p → serve_uploaded_file cfg cwd fs fn = HttpResult.notFound) ∧
    serve_uploaded_file cfg cwd fs fn ≠ HttpResult.serverError := by
  have hjoin : posixJoin cwd p = p := by
    unfold posixJoin
    rw [if_pos habs]
  unfold serve_uploaded_file send_from_directory
  rw [hset]
  dsimp only
  rw [hp]
  dsimp only
  rw [hjoin]
  refine ⟨fun hf => ?_, fun hf => ?_, ?_⟩
  · rw [if_pos hf]
  · rw [if_neg hf]
  · by_cases hf : isFile fs p
    · rw [if_pos hf]
      simp
    · rw [if_neg hf]
      simp

/-- Witness for C4 at concrete inputs: an existing file is streamed, a
missing one yields not-found. -/
theorem serve_uploaded_file_found_or_not_found_witness :
    serve_uploaded_file demoConfig "/" demoFullFS "cvs/cv1.pdf" =
      HttpResult.file "/srv/uploads/cvs/cv1.pdf" ∧
    serve_uploaded_file demoConfig "/" demoFullFS "cvs/missing.pdf" =
      HttpResult.notFound := by
  have h1 := serve_uploaded_file_found_or_not_found demoConfig "/" demoFullFS
    "/srv/uploads" "cvs/cv1.pdf" "/srv/uploads/cvs/cv1.pdf"
    (by decide) (by decide) (by decide)
  have h2 := serve_uploaded_file_found_or_not_found demoConfig "/" demoFullFS
    "/srv/uploads" "cvs/missing.pdf" "/srv/uploads/cvs/missing.pdf"
    (by decide) (by decide) (by decide)
  exact ⟨h1.1 (by decide), h2.2.1 (by decide)⟩

/-- C9: when UPLOAD_FOLDER is absent from the selected configuration,
create_app still completes, using the cwd-based uploads directory for the
directory-creation step, but every request to the upload route is a server
error, because serve_uploaded_file reads the key with no default. -/
theorem create_app_without_upload_folder
    (cm : String → Option AppConfig) (env : String) (cn fe : Option String)
    (cwd : String) (fs : FS) (chosen : AppConfig)
    (hch : chooseConfig cm (resolveConfigName cn fe env) = some chosen)
    (hnone : chosen.uploadFolder = none) :
    ∃ app, create_app cm env cn fe cwd fs = some app ∧
      app.config.uploadFolder = none ∧
      app.fs = uploadStep app.config cwd fs ∧
      effectiveUploadFolder app.config cwd = posixJoin cwd "uploads" ∧
      ∀ (gs : FS) (fn : String),
        serve_uploaded_file app.config cwd gs fn = HttpResult.serverError := by
  have hcfg : (fixDatabaseUri chosen).uploadFolder = none := by
    rw [fixDatabaseUri_uploadFolder]
    exact hnone
  refine ⟨buildApp chosen cwd fs, ?_, ?_, rfl, ?_, ?_⟩
  · unfold create_app
    rw [hch]
  · rw [buildApp_config]
    exact hcfg
  · rw [buildApp_config]
    unfold effectiveUploadFolder
    rw [hcfg]
    rfl
  · intro gs fn
    unfold serve_uploaded_file
    rw [buildApp_config, hcfg]

/-- Witness for C9 at a concrete input: the bare configuration lacks
UPLOAD_FOLDER, and a request for an existing file still is a server error. -/
theorem create_app_without_upload_folder_witness :
    bareApp.config.uploadFolder = none ∧
    serve_uploaded_file bareApp.config "/app" demoFullFS "cvs/cv1.pdf" =
      HttpResult.serverError := by
  obtain ⟨app, happ, hnone, _, _, hserve⟩ :=
    create_app_without_upload_folder bareConfigMap "development" none none "/app"
      emptyFS bareConfig (by decide) (by decide)
  have heq : bareApp = app := by
    unfold bareApp
    rw [happ]
    rfl
  rw [heq]
  exact ⟨hnone, hserve demoFullFS "cvs/cv1.pdf"⟩

/-- C10: for every filename whose resolved (normalized) name escapes the
configured upload directory — an absolute name, a bare parent reference, or a
name still beginning with a parent segment after normalization — the upload
route answers not-found; and whenever the route does stream a file, the
served path is the upload folder joined with the normalized non-escaping
name, which is relative and contains no parent-directory component. -/
theorem serve_uploaded_file_traversal_safe
    (cfg : AppConfig) (cwd : String) (fs : FS) (uf fn : String)
    (hset : cfg.uploadFolder = some uf) (hufne : uf ≠ "") :
    (escapingName (resolvedName fn) = true →
      serve_uploaded_file cfg cwd fs fn = HttpResult.notFound) ∧
    (∀ p, serve_uploaded_file cfg cwd fs fn = HttpResult.file p →
      escapingName (resolvedName fn) = false ∧
      p = posixJoin cwd (posixJoin uf (resolvedName fn)) ∧
      isAbs (resolvedName fn) = false ∧
      ".." ∉ resolvedComps fn) := by
  have hdir : (if uf = "" then "." else uf) = uf := if_neg hufne
  unfold serve_uploaded_file
  rw [hset]
  dsimp only
  unfold send_from_directory safe_join
  dsimp only
  rw [hdir]
  by_cases hesc : escapingName (resolvedName fn) = true
  · rw [if_pos hesc]
    dsimp only
    exact ⟨fun _ => rfl, fun p hp => by cases hp⟩
  · rw [if_neg hesc]
    dsimp only
    have hescf : escapingName (resolvedName fn) = false := by
      simpa using hesc
    constructor
    · intro hesc2
      rw [hesc2] at hescf
      cases hescf
    · intro p hp
      by_cases hf : isFile fs (posixJoin cwd (posixJoin uf (resolvedName fn)))
      · rw [if_pos hf] at hp
        cases hp
        refine ⟨hescf, rfl, ?_, ?_⟩
        · by_contra hA
          rw [Bool.not_eq_false] at hA
          unfold escapingName at hescf
          rw [hA] at hescf
          simp at hescf
        · by_cases hfn : fn = ""
          · subst hfn
            simp [resolvedComps]
          · unfold resolvedComps
            rw [if_neg hfn]
            apply no_parent_comps_of_not_escaping fn hfn
            have hres : resolvedName fn = normpath fn := by
              unfold resolvedName
              rw [if_pos hfn]
            rw [← hres]
            exact hescf
      · rw [if_neg hf] at hp
        cases hp

/-- Witness for C10 at a concrete input: a parent-traversal filename is
rejected with not-found. -/
theorem serve_uploaded_file_traversal_safe_witness :
    serve_uploaded_file demoConfig "/" demoFullFS "../../etc/passwd" =
      HttpResult.notFound :=
  (serve_uploaded_file_traversal_safe demoConfig "/" demoFullFS "/srv/uploads"
    "../../etc/passwd" (by decide) (by decide)).1 (by decide)

end WebCV
